import Mathlib

/-!
# Verification of the pipe-trades CLI (src/main.c)

A shallow embedding of the numeric core of the pipe-trades command-line
calculator: the strict numeric parser (`parse_double`), the three formula
commands (`gps-verify`, `beam-wrap`, `rolling-offset`) and their validation
gates.  C `double` values flowing through the exact algebraic parts of the
code are modelled as rationals (every finite double is a rational, and all
the validated arithmetic here is field arithmetic); the transcendental
outputs (square roots, trigonometry, pi) are modelled over the reals.
Values produced by `strtod` are modelled by `CDouble`, which keeps the
non-finite values `nan`, `posInf` and `negInf` that the C library can
return, together with C's comparison semantics on them.
-/

namespace PipeTrades

/-- Model of a C `double` as produced by `strtod` and consumed by the
validation gates: a finite value (an exact rational) or one of the
non-finite IEEE values.  Rounding of finite values is idealised away
(exact arithmetic); `nan` and the infinities are kept because C's
comparison operators treat them specially. -/
inductive CDouble where
  | finite (q : ℚ)
  | nan
  | posInf
  | negInf
deriving DecidableEq, Repr

/-- C's `<=` on doubles: any comparison with NaN is false; the infinities
compare in the usual order. -/
def CDouble.cle : CDouble → CDouble → Bool
  | .finite a, .finite b => a ≤ b
  | .nan, _ => false
  | _, .nan => false
  | .negInf, _ => true
  | _, .negInf => false
  | .posInf, .posInf => true
  | .finite _, .posInf => true
  | .posInf, .finite _ => false

/-! ## Rolling offset (cmd_rolling_offset, src/main.c lines 139-178)

The command parses three doubles, rejects near-zero travel, computes
`true_offset = hypot(offset, roll)`,
`set = (travel^2 - offset^2 - roll^2) / (2*travel)`,
`diagonal_squared = travel^2 + offset^2 + roll^2 - 2*travel*set`,
rejects a negative `diagonal_squared`, and prints
`diagonal = sqrt(diagonal_squared)`.  The algebraic pipeline is exact
rational arithmetic; the two square roots live in `ℝ`. -/

/-- `EPSILON` of src/main.c line 14: `1e-9`. -/
def EPSILON : ℚ := 1 / 1000000000

/-- The two `ValidationError`s `cmd_rolling_offset` can exit with. -/
inductive RoError where
  | zeroTravel
  | imaginaryDiagonal
deriving DecidableEq, Repr

/-- The exact-arithmetic intermediate results of `cmd_rolling_offset`:
`set` (line 158) and `diagonal_squared` (line 161). -/
structure RollingOffsetCore where
  set : ℚ
  diagonal_squared : ℚ
deriving DecidableEq, Repr

/-- `set = (travel*travel - offset*offset - roll*roll) / (2.0 * travel)`,
src/main.c line 158. -/
def ro_set (offset roll travel : ℚ) : ℚ :=
  (travel * travel - offset * offset - roll * roll) / (2 * travel)

/-- `diagonal_squared = travel*travel + offset*offset + roll*roll
- 2.0 * travel * set`, src/main.c line 161. -/
def ro_diagonal_squared (offset roll travel : ℚ) : ℚ :=
  travel * travel + offset * offset + roll * roll -
    2 * travel * ro_set offset roll travel

/-- The validation-and-algebra pipeline of `cmd_rolling_offset`
(src/main.c lines 149-166): fail on `fabs(travel) < EPSILON`, fail on
`diagonal_squared < 0`, otherwise return the exact intermediates. -/
def cmd_rolling_offset (offset roll travel : ℚ) :
    Except RoError RollingOffsetCore :=
  if |travel| < EPSILON then .error .zeroTravel
  else if ro_diagonal_squared offset roll travel < 0 then
    .error .imaginaryDiagonal
  else .ok ⟨ro_set offset roll travel, ro_diagonal_squared offset roll travel⟩

/-- `true_offset = hypot(offset, roll)` (src/main.c line 155): the
Euclidean norm of the two offsets. -/
noncomputable def true_offset (offset roll : ℚ) : ℝ :=
  Real.sqrt ((offset : ℝ) * offset + (roll : ℝ) * roll)

/-- `diagonal = sqrt(diagonal_squared)` (src/main.c line 168). -/
noncomputable def ro_diagonal (offset roll travel : ℚ) : ℝ :=
  Real.sqrt ((ro_diagonal_squared offset roll travel : ℝ))

/-! ## Beam wrap (cmd_beam_wrap, src/main.c lines 102-137)

The command parses two doubles, rejects a non-positive diameter, then a
non-positive length (C comparisons, so NaN passes both gates), and
computes circumference, surface area and material with a fixed 10%
overlap allowance. -/

/-- The two "must be positive" `ValidationError`s of `cmd_beam_wrap`
(src/main.c lines 111-118), tagged by the offending field. -/
inductive BwError where
  | diameterNotPositive
  | lengthNotPositive
deriving DecidableEq, Repr

/-- The validation gate of `cmd_beam_wrap` (src/main.c lines 111-118):
`if (diameter <= 0)` then `if (length <= 0)`, using C's comparison on
doubles (`CDouble.cle`). -/
def beam_wrap_validate (diameter length : CDouble) : Option BwError :=
  if diameter.cle (.finite 0) then some .diameterNotPositive
  else if length.cle (.finite 0) then some .lengthNotPositive
  else none

/-- The three derived quantities `cmd_beam_wrap` prints. -/
structure BeamWrapResult where
  circumference : ℝ
  area_sq_feet : ℝ
  material_needed : ℝ

/-- The computation of `cmd_beam_wrap` (src/main.c lines 120-128):
`radius = diameter / 2.0`, `circumference = 2.0 * M_PI * radius`,
`length_inches = length * 12.0`,
`area_sq_inches = circumference * length_inches`,
`area_sq_feet = area_sq_inches / 144.0`,
`material_needed = area_sq_feet * 1.1`. -/
noncomputable def beam_wrap_compute (diameter length : ℚ) : BeamWrapResult :=
  let radius := (diameter : ℝ) / 2
  let circumference := 2 * Real.pi * radius
  let length_inches := (length : ℝ) * 12
  let area_sq_inches := circumference * length_inches
  let area_sq_feet := area_sq_inches / 144
  ⟨circumference, area_sq_feet, area_sq_feet * 1.1⟩

/-- `cmd_beam_wrap` on two parsed finite doubles: the validation gate,
then the computation.  An `Except.error` means the process exits 1
before printing any of the result block. -/
noncomputable def cmd_beam_wrap (diameter length : ℚ) :
    Except BwError BeamWrapResult :=
  match beam_wrap_validate (.finite diameter) (.finite length) with
  | some e => .error e
  | none => .ok (beam_wrap_compute diameter length)

/-! ## GPS distance (gps_distance / cmd_gps_verify, src/main.c lines 66-100) -/

/-- C's `atan2(y, x)`: the angle of the point (x, y), via `arctan`
with the usual quadrant corrections. -/
noncomputable def atan2 (y x : ℝ) : ℝ :=
  if 0 < x then Real.arctan (y / x)
  else if x < 0 ∧ 0 ≤ y then Real.arctan (y / x) + Real.pi
  else if x < 0 ∧ y < 0 then Real.arctan (y / x) - Real.pi
  else if x = 0 ∧ 0 < y then Real.pi / 2
  else if x = 0 ∧ y < 0 then -(Real.pi / 2)
  else 0

/-- The haversine intermediate `a` of `gps_distance`
(src/main.c lines 74-76):
`sin(dlat/2)^2 + cos(lat1_rad) * cos(lat2_rad) * sin(dlon/2)^2` with
`dlat = (lat2 - lat1) * pi / 180`, `dlon = (lon2 - lon1) * pi / 180`. -/
noncomputable def haversine_a (lat1 lon1 lat2 lon2 : ℝ) : ℝ :=
  Real.sin ((lat2 - lat1) * Real.pi / 180 / 2) *
      Real.sin ((lat2 - lat1) * Real.pi / 180 / 2) +
    Real.cos (lat1 * Real.pi / 180) * Real.cos (lat2 * Real.pi / 180) *
      Real.sin ((lon2 - lon1) * Real.pi / 180 / 2) *
      Real.sin ((lon2 - lon1) * Real.pi / 180 / 2)

/-- `gps_distance` (src/main.c lines 66-80): haversine distance on a
sphere of radius 6,371,000 m,
`c = 2 * atan2(sqrt(a), sqrt(1 - a))`, result `R * c`. -/
noncomputable def gps_distance (lat1 lon1 lat2 lon2 : ℝ) : ℝ :=
  6371000 *
    (2 * atan2 (Real.sqrt (haversine_a lat1 lon1 lat2 lon2))
      (Real.sqrt (1 - haversine_a lat1 lon1 lat2 lon2)))

/-! ## Strict numeric parser (parse_double, src/main.c lines 16-47)

`parse_double` skips leading whitespace, fails on an empty remainder,
converts with the C library's `strtod`, skips trailing whitespace and
fails if anything is left unconsumed.  `strtod` is modelled on the C11
description of its decimal forms: optional whitespace, an optional
sign, a digit sequence with an optional decimal point, an optional
`e`/`E` exponent (consumed only when at least one exponent digit
follows), plus the case-insensitive special tokens `inf`, `infinity`
and `nan`.  Finite values are exact rationals: IEEE rounding and the
`errno == ERANGE` overflow/underflow path are idealised away, and the
C11 hexadecimal forms are outside the model. -/

/-- C's `isspace` in the default locale: space, `\t`, `\n`, vertical
tab, form feed, `\r`. -/
def c_isspace (c : Char) : Bool :=
  c == ' ' || c == '\t' || c == '\n' || c == Char.ofNat 11 ||
    c == Char.ofNat 12 || c == '\r'

/-- Numeric value of a digit character. -/
def digitVal (c : Char) : ℕ := c.toNat - 48

/-- Value of a digit string read as an integer, most significant digit
first. -/
def natOfDigits (ds : List Char) : ℕ :=
  ds.foldl (fun n c => 10 * n + digitVal c) 0

/-- Value of a digit string read as the fraction `0.d1 d2 …`. -/
def fracOfDigits (ds : List Char) : ℚ :=
  ds.foldr (fun c q => ((digitVal c : ℚ) + q) / 10) 0

/-- Lower-case an ASCII letter. -/
def lowerChar (c : Char) : Char :=
  if 'A' ≤ c && c ≤ 'Z' then Char.ofNat (c.toNat + 32) else c

/-- Does the input (second list) start with the given lower-case
pattern, case-insensitively? -/
def startsWithLower : List Char → List Char → Bool
  | [], _ => true
  | _ :: _, [] => false
  | p :: ps, c :: cs => (lowerChar c == p) && startsWithLower ps cs

/-- The exponent digits of `strtod`'s decimal grammar: scale the
mantissa `m` by `10^(±digits)`; when no digit follows, consume nothing
and return `whole` (the suffix starting at the `e`), as `strtod` backs
up over a dangling exponent prefix. -/
def parseExpDigits (m : ℚ) (whole : List Char) (eNeg : Bool)
    (cs : List Char) : ℚ × List Char :=
  let eD := cs.takeWhile Char.isDigit
  let rest := cs.dropWhile Char.isDigit
  if eD.isEmpty then (m, whole)
  else (m * (10 : ℚ) ^ ((if eNeg then (-1 : ℤ) else 1) *
    (natOfDigits eD : ℤ)), rest)

/-- The optional exponent part of `strtod`'s decimal grammar: `e`/`E`,
an optional sign, then digits. -/
def parseExp (m : ℚ) (cs : List Char) : ℚ × List Char :=
  if cs.head? = some 'e' ∨ cs.head? = some 'E' then
    if cs.tail.head? = some '+' then parseExpDigits m cs false cs.tail.tail
    else if cs.tail.head? = some '-' then
      parseExpDigits m cs true cs.tail.tail
    else parseExpDigits m cs false cs.tail
  else (m, cs)

/-- The decimal significand of `strtod` (after any sign): a digit
sequence with an optional decimal point (at least one digit in all),
then the optional exponent.  `none` when no conversion could be
performed. -/
def parseDecimal (cs : List Char) : Option (ℚ × List Char) :=
  let intD := cs.takeWhile Char.isDigit
  let r1 := cs.dropWhile Char.isDigit
  if r1.head? = some '.' then
    let fracD := r1.tail.takeWhile Char.isDigit
    let r3 := r1.tail.dropWhile Char.isDigit
    if intD.isEmpty ∧ fracD.isEmpty then none
    else some (parseExp ((natOfDigits intD : ℚ) + fracOfDigits fracD) r3)
  else
    if intD.isEmpty then none
    else some (parseExp ((natOfDigits intD : ℚ)) r1)

/-- `strtod` after the optional sign: a decimal significand, or the
case-insensitive special tokens `infinity`, `inf` and `nan`. -/
def parseAfterSign (neg : Bool) (cs : List Char) :
    Option (CDouble × List Char) :=
  match parseDecimal cs with
  | some (q, rest) => some (.finite (if neg then -q else q), rest)
  | none =>
    if startsWithLower ['i', 'n', 'f', 'i', 'n', 'i', 't', 'y'] cs then
      some (if neg then .negInf else .posInf, cs.drop 8)
    else if startsWithLower ['i', 'n', 'f'] cs then
      some (if neg then .negInf else .posInf, cs.drop 3)
    else if startsWithLower ['n', 'a', 'n'] cs then
      some (.nan, cs.drop 3)
    else none

/-- Model of the C library's `strtod`: skip leading whitespace, read an
optional sign, then the significand.  Returns the converted value and
the unconsumed suffix; `none` when no conversion could be performed
(C then leaves `endptr` at the start of the string).  On overflow C
returns plus or minus `HUGE_VAL`; the model keeps the exact value here
and `parse_double` performs the mandated `errno == ERANGE` test via
`strtod_sets_erange`, which is observationally equivalent because
`parse_double` exits before the returned value is ever used. -/
def strtod (s : List Char) : Option (CDouble × List Char) :=
  let cs := s.dropWhile c_isspace
  if cs.head? = some '+' then parseAfterSign false cs.tail
  else if cs.head? = some '-' then parseAfterSign true cs.tail
  else parseAfterSign false cs

/-- The smallest magnitude at which a correctly rounded (to nearest,
ties to even) conversion overflows `double`: `DBL_MAX = 2^1024 - 2^971`
and the next representable value would be `2^1024`, so exact values of
magnitude at least the midpoint `2^1024 - 2^970` round to infinity and
C11 7.22.1.3 mandates `errno = ERANGE`. -/
def overflowBound : ℚ := 2 ^ 1024 - 2 ^ 970

/-- Does the conversion of this exact value overflow the `double`
range, making `strtod` set `errno = ERANGE` (mandated by C11)?  On
underflow C11 leaves setting `errno` implementation-defined; the model
takes the minimal mandated behaviour, so the underflow path is outside
the model. -/
def strtodOverflows (q : ℚ) : Bool :=
  decide (q ≤ -overflowBound ∨ overflowBound ≤ q)

/-- The `errno != 0` state `parse_double` tests after conversion
(src/main.c lines 18 and 33-37): `ERANGE` from an overflowing finite
conversion; the special tokens `inf`/`nan` leave `errno` at 0. -/
def strtod_sets_erange : CDouble → Bool
  | .finite q => strtodOverflows q
  | _ => false

/-- `parse_double` (src/main.c lines 16-47): fail when the token is
empty after leading whitespace; convert with `strtod`; fail when the
conversion set `errno` (lines 33-37, the `ERANGE` overflow case); skip
trailing whitespace from `endptr`; fail if any character remains.
`none` models the `exit(1)` with the "Invalid number" message. -/
def parse_double (s : List Char) : Option CDouble :=
  if (s.dropWhile c_isspace).isEmpty then none
  else
    match strtod s with
    | none => none
    | some (v, rest) =>
      if strtod_sets_erange v then none
      else if (rest.dropWhile c_isspace).isEmpty then some v else none

/-! ## The gps-verify command (cmd_gps_verify, src/main.c lines 82-100) -/

/-- The failures `cmd_gps_verify` can exit 1 with: too few arguments
(the usage-specific message on stderr), or a `parse_double` failure on
one of the four coordinate fields. -/
inductive GpsCliError where
  | argCount
  | badNumber (field : String)
deriving DecidableEq, Repr

/-- The four coordinates `cmd_gps_verify` parses; the printed result
block applies `gps_distance` to them. -/
structure GpsArgs where
  lat1 : CDouble
  lon1 : CDouble
  lat2 : CDouble
  lon2 : CDouble
deriving DecidableEq, Repr

/-- `parse_double`'s exit-on-failure behaviour lifted to the command
layer: the field name only feeds the error message. -/
def parse_field (arg : List Char) (field : String) :
    Except GpsCliError CDouble :=
  match parse_double arg with
  | some v => Except.ok v
  | none => Except.error (.badNumber field)

/-- Did the command produce a result (exit 0) rather than exit 1? -/
def exceptOk {ε α : Type _} : Except ε α → Bool
  | .ok _ => true
  | .error _ => false

/-- `cmd_gps_verify` on the arguments after the command name
(src/main.c lines 82-100): `argc < 6` — fewer than four arguments —
exits 1 with the usage-specific error; otherwise exactly the first
four arguments are parsed (`argv[2]`..`argv[5]`; later arguments are
never read) and the result block is printed. -/
def cmd_gps_verify (args : List (List Char)) : Except GpsCliError GpsArgs :=
  match args with
  | a1 :: a2 :: a3 :: a4 :: _ => do
    let lat1 ← parse_field a1 "lat1"
    let lon1 ← parse_field a2 "lon1"
    let lat2 ← parse_field a3 "lat2"
    let lon2 ← parse_field a4 "lon2"
    Except.ok ⟨lat1, lon1, lat2, lon2⟩
  | _ => Except.error .argCount

/-! ### Supporting lemmas on spans and character classes -/

lemma dropWhile_append_all {p : Char → Bool} {xs ys : List Char}
    (h : ∀ c ∈ xs, p c = true) :
    (xs ++ ys).dropWhile p = ys.dropWhile p := by
  induction xs with
  | nil => rfl
  | cons a l ih =>
    simp only [List.cons_append, List.dropWhile_cons,
      h a (List.mem_cons_self a l), if_true]
    exact ih fun c hc => h c (List.mem_cons_of_mem a hc)

lemma dropWhile_of_head {p : Char → Bool} {ys : List Char}
    (h : ∀ c, ys.head? = some c → p c = false) : ys.dropWhile p = ys := by
  cases ys with
  | nil => rfl
  | cons a l => simp [List.dropWhile_cons, h a rfl]

lemma takeWhile_append_exact {p : Char → Bool} {xs ys : List Char}
    (hx : ∀ c ∈ xs, p c = true)
    (hy : ∀ c, ys.head? = some c → p c = false) :
    (xs ++ ys).takeWhile p = xs := by
  induction xs with
  | nil =>
    cases ys with
    | nil => rfl
    | cons a l => simp [List.takeWhile_cons, hy a rfl]
  | cons a l ih =>
    simp only [List.cons_append, List.takeWhile_cons,
      hx a (List.mem_cons_self a l), if_true, List.cons.injEq, true_and]
    exact ih fun c hc => hx c (List.mem_cons_of_mem a hc)

lemma dropWhile_append_exact {p : Char → Bool} {xs ys : List Char}
    (hx : ∀ c ∈ xs, p c = true)
    (hy : ∀ c, ys.head? = some c → p c = false) :
    (xs ++ ys).dropWhile p = ys := by
  rw [dropWhile_append_all hx, dropWhile_of_head hy]

lemma space_char_cases {c : Char} (h : c_isspace c = true) :
    c = ' ' ∨ c = '\t' ∨ c = '\n' ∨ c = Char.ofNat 11 ∨
      c = Char.ofNat 12 ∨ c = '\r' := by
  have h' := h
  simp only [c_isspace, Bool.or_eq_true, beq_iff_eq] at h'
  tauto

lemma space_not_special {c : Char} (h : c_isspace c = true) :
    c.isDigit = false ∧ c ≠ '+' ∧ c ≠ '-' ∧ c ≠ '.' ∧ c ≠ 'e' ∧
      c ≠ 'E' := by
  rcases space_char_cases h with rfl | rfl | rfl | rfl | rfl | rfl <;> decide

lemma digit_not_special {c : Char} (h : c.isDigit = true) :
    c_isspace c = false ∧ c ≠ '+' ∧ c ≠ '-' ∧ c ≠ '.' ∧ c ≠ 'e' ∧
      c ≠ 'E' := by
  refine ⟨?_, ?_, ?_, ?_, ?_, ?_⟩
  · cases hs : c_isspace c with
    | false => rfl
    | true => rw [(space_not_special hs).1] at h; exact absurd h (by simp)
  · intro h'; rw [h'] at h; exact absurd h (by decide)
  · intro h'; rw [h'] at h; exact absurd h (by decide)
  · intro h'; rw [h'] at h; exact absurd h (by decide)
  · intro h'; rw [h'] at h; exact absurd h (by decide)
  · intro h'; rw [h'] at h; exact absurd h (by decide)

lemma overflowBound_big : (10000000000 : ℚ) < overflowBound := by
  norm_num [overflowBound]

lemma strtodOverflows_small {q : ℚ} (h1 : -10000000000 ≤ q)
    (h2 : q ≤ 10000000000) : strtodOverflows q = false := by
  rw [strtodOverflows, decide_eq_false_iff_not]
  have hb := overflowBound_big
  rintro (h | h) <;> linarith

lemma parseExp_no_exp {m : ℚ} {rest : List Char}
    (h : ∀ c, rest.head? = some c → c ≠ 'e' ∧ c ≠ 'E') :
    parseExp m rest = (m, rest) := by
  rw [parseExp, if_neg]
  rintro (hc | hc)
  · exact (h _ hc).1 rfl
  · exact (h _ hc).2 rfl

lemma parseExp_with_exp {m : ℚ} {eCh : Char} {eSgn eD rest : List Char}
    (heCh : eCh = 'e' ∨ eCh = 'E')
    (heSgn : eSgn = [] ∨ eSgn = ['+'] ∨ eSgn = ['-'])
    (heD : ∀ c ∈ eD, c.isDigit = true) (hne : eD ≠ [])
    (hrest : ∀ c, rest.head? = some c → c.isDigit = false) :
    parseExp m (eCh :: (eSgn ++ (eD ++ rest))) =
      (m * (10 : ℚ) ^ ((if eSgn = ['-'] then (-1 : ℤ) else 1) *
        (natOfDigits eD : ℤ)), rest) := by
  obtain ⟨d, ds, rfl⟩ : ∃ d ds, eD = d :: ds := by
    cases eD with
    | nil => exact absurd rfl hne
    | cons d ds => exact ⟨d, ds, rfl⟩
  have hd : d.isDigit = true := heD d (List.mem_cons_self d ds)
  have hdspec := digit_not_special hd
  have hspan1 : (d :: (ds ++ rest)).takeWhile Char.isDigit = d :: ds := by
    have := takeWhile_append_exact heD hrest
    simpa using this
  have hspan2 : (d :: (ds ++ rest)).dropWhile Char.isDigit = rest := by
    have := dropWhile_append_exact heD hrest
    simpa using this
  have hcond : (eCh :: (eSgn ++ ((d :: ds) ++ rest))).head? = some 'e' ∨
      (eCh :: (eSgn ++ ((d :: ds) ++ rest))).head? = some 'E' := by
    rcases heCh with rfl | rfl
    · exact Or.inl rfl
    · exact Or.inr rfl
  rw [parseExp, if_pos hcond]
  rcases heSgn with rfl | rfl | rfl
  · simp only [List.nil_append, List.tail_cons, List.cons_append,
      List.head?_cons]
    rw [if_neg (by simp [hdspec.2.1]), if_neg (by simp [hdspec.2.2.1]),
      parseExpDigits]
    simp only [hspan1, hspan2, List.isEmpty_cons, Bool.false_eq_true,
      if_false]
    simp
  · simp only [List.cons_append, List.tail_cons, List.head?_cons,
      List.nil_append]
    rw [if_pos trivial, parseExpDigits]
    simp only [List.tail_cons, hspan1, hspan2, List.isEmpty_cons,
      Bool.false_eq_true, if_false]
    simp
  · simp only [List.cons_append, List.tail_cons, List.head?_cons,
      List.nil_append]
    rw [if_neg (by simp), if_pos trivial, parseExpDigits]
    simp only [List.tail_cons, hspan1, hspan2, List.isEmpty_cons,
      Bool.false_eq_true, if_false]

lemma parseDecimal_with_dot {intD fracD tail2 : List Char}
    (hint : ∀ c ∈ intD, c.isDigit = true)
    (hfrac : ∀ c ∈ fracD, c.isDigit = true)
    (hne : ¬(intD = [] ∧ fracD = []))
    (htail : ∀ c, tail2.head? = some c → c.isDigit = false) :
    parseDecimal (intD ++ ('.' :: (fracD ++ tail2))) =
      some (parseExp ((natOfDigits intD : ℚ) + fracOfDigits fracD) tail2) := by
  have hdot : ∀ c, ('.' :: (fracD ++ tail2)).head? = some c →
      Char.isDigit c = false := by
    intro c hc
    rw [List.head?_cons, Option.some.injEq] at hc
    rw [← hc]
    decide
  have h1 : (intD ++ ('.' :: (fracD ++ tail2))).takeWhile Char.isDigit =
      intD := takeWhile_append_exact hint hdot
  have h2 : (intD ++ ('.' :: (fracD ++ tail2))).dropWhile Char.isDigit =
      '.' :: (fracD ++ tail2) := dropWhile_append_exact hint hdot
  have h3 : (fracD ++ tail2).takeWhile Char.isDigit = fracD :=
    takeWhile_append_exact hfrac htail
  have h4 : (fracD ++ tail2).dropWhile Char.isDigit = tail2 :=
    dropWhile_append_exact hfrac htail
  have hcond : ¬(intD.isEmpty = true ∧ fracD.isEmpty = true) := by
    simpa [List.isEmpty_iff] using hne
  rw [parseDecimal]
  simp only [h1, h2, List.head?_cons, List.tail_cons, h3, h4]
  rw [if_pos trivial, if_neg hcond]

lemma parseDecimal_no_dot {intD tail2 : List Char}
    (hint : ∀ c ∈ intD, c.isDigit = true) (hne : intD ≠ [])
    (htail : ∀ c, tail2.head? = some c →
      c.isDigit = false ∧ c ≠ '.') :
    parseDecimal (intD ++ tail2) =
      some (parseExp ((natOfDigits intD : ℚ)) tail2) := by
  have h1 : (intD ++ tail2).takeWhile Char.isDigit = intD :=
    takeWhile_append_exact hint fun c hc => (htail c hc).1
  have h2 : (intD ++ tail2).dropWhile Char.isDigit = tail2 :=
    dropWhile_append_exact hint fun c hc => (htail c hc).1
  have hdotcond : ¬(tail2.head? = some '.') := by
    intro hc
    exact (htail '.' hc).2 rfl
  have hempty : ¬(intD.isEmpty = true) := by
    simpa [List.isEmpty_iff] using hne
  rw [parseDecimal]
  simp only [h1, h2]
  rw [if_neg hdotcond, if_neg hempty]

lemma parseAfterSign_some {neg : Bool} {cs rest : List Char} {q : ℚ}
    (h : parseDecimal cs = some (q, rest)) :
    parseAfterSign neg cs =
      some (.finite (if neg then -q else q), rest) := by
  rw [parseAfterSign, h]

lemma strtod_sign_core {w1 sgn core rest : List Char} {neg : Bool} {q : ℚ}
    (hw1 : ∀ c ∈ w1, c_isspace c = true)
    (hsgn : ((sgn = [] ∨ sgn = ['+']) ∧ neg = false) ∨
      (sgn = ['-'] ∧ neg = true))
    (hcore : ∀ c, core.head? = some c →
      c ≠ '+' ∧ c ≠ '-' ∧ c_isspace c = false)
    (hcorene : core ≠ [])
    (hpd : parseDecimal core = some (q, rest)) :
    strtod (w1 ++ (sgn ++ core)) =
      some (.finite (if neg then -q else q), rest) := by
  obtain ⟨d, ds, rfl⟩ : ∃ d ds, core = d :: ds := by
    cases core with
    | nil => exact absurd rfl hcorene
    | cons d ds => exact ⟨d, ds, rfl⟩
  have hd := hcore d rfl
  have hdrop : (w1 ++ (sgn ++ (d :: ds))).dropWhile c_isspace =
      sgn ++ (d :: ds) := by
    rw [dropWhile_append_all hw1]
    apply dropWhile_of_head
    intro c hc
    rcases hsgn with ⟨hs, _⟩ | ⟨hs, _⟩
    · rcases hs with rfl | rfl
      · rw [List.nil_append, List.head?_cons, Option.some.injEq] at hc
        rw [← hc]
        exact hd.2.2
      · rw [List.cons_append, List.head?_cons, Option.some.injEq] at hc
        rw [← hc]
        decide
    · rcases hs with rfl
      rw [List.cons_append, List.head?_cons, Option.some.injEq] at hc
      rw [← hc]
      decide
  rw [strtod]
  simp only [hdrop]
  rcases hsgn with ⟨hs, rfl⟩ | ⟨hs, rfl⟩
  · rcases hs with rfl | rfl
    · rw [List.nil_append, if_neg (by simp [hd.1]), if_neg (by simp [hd.2.1])]
      exact parseAfterSign_some hpd
    · simp only [List.cons_append, List.head?_cons]
      rw [if_pos trivial, List.tail_cons]
      exact parseAfterSign_some hpd
  · rcases hs with rfl
    simp only [List.cons_append, List.head?_cons]
    rw [if_neg (by simp), if_pos trivial, List.tail_cons]
    exact parseAfterSign_some hpd

/-- The value of a decomposed numeric token, as the spec describes it:
sign × (integer digits + fraction digits) × 10^(signed exponent). -/
def tokenValue (sgn intD fracD eSgn eD : List Char) (hasExp : Bool) : ℚ :=
  (if sgn = ['-'] then (-1 : ℚ) else 1) *
    (((natOfDigits intD : ℚ) + fracOfDigits fracD) *
      (if hasExp then
        (10 : ℚ) ^ ((if eSgn = ['-'] then (-1 : ℤ) else 1) *
          (natOfDigits eD : ℤ))
      else 1))

/-- `strtod` on a whitespace-then-sign-then-significand-then-exponent
decomposition consumes exactly the token and returns its decimal
value, leaving `rest`, provided `rest` cannot extend the token (its
head is no digit; nor a dangling `e`/`E`/`.` in the positions where
those would extend the number). -/
lemma strtod_token
    (w1 sgn intD fracD eSgn eD rest : List Char)
    (hasDot hasExp : Bool) (eCh : Char)
    (hw1 : ∀ c ∈ w1, c_isspace c = true)
    (hsgn : sgn = [] ∨ sgn = ['+'] ∨ sgn = ['-'])
    (hint : ∀ c ∈ intD, c.isDigit = true)
    (hfrac : ∀ c ∈ fracD, c.isDigit = true)
    (hmant : intD ≠ [] ∨ (hasDot = true ∧ fracD ≠ []))
    (hnodot : hasDot = false → fracD = [])
    (heCh : eCh = 'e' ∨ eCh = 'E')
    (heSgn : eSgn = [] ∨ eSgn = ['+'] ∨ eSgn = ['-'])
    (heD : ∀ c ∈ eD, c.isDigit = true)
    (heDne : hasExp = true → eD ≠ [])
    (hrest : ∀ c, rest.head? = some c →
      c.isDigit = false ∧ (hasExp = false → c ≠ 'e' ∧ c ≠ 'E') ∧
        (hasDot = false → hasExp = false → c ≠ '.')) :
    strtod (w1 ++ (sgn ++ (intD ++
        ((if hasDot then '.' :: fracD else ([] : List Char)) ++
          ((if hasExp then eCh :: (eSgn ++ eD) else ([] : List Char)) ++
            rest))))) =
      some (.finite (tokenValue sgn intD fracD eSgn eD hasExp), rest) := by
  -- the exponent-and-rest suffix, and what parseExp does to it
  have hexp : ∀ m : ℚ,
      parseExp m ((if hasExp then eCh :: (eSgn ++ eD)
          else ([] : List Char)) ++ rest) =
        (m * (if hasExp then
          (10 : ℚ) ^ ((if eSgn = ['-'] then (-1 : ℤ) else 1) *
            (natOfDigits eD : ℤ)) else 1), rest) := by
    intro m
    cases hasExp with
    | false =>
      simp only [Bool.false_eq_true, if_false, List.nil_append, mul_one]
      exact parseExp_no_exp fun c hc => (hrest c hc).2.1 rfl
    | true =>
      simp only [if_true, List.cons_append, List.append_assoc]
      exact parseExp_with_exp heCh heSgn heD (heDne rfl)
        (fun c hc => (hrest c hc).1)
  -- heads of the exponent-and-rest suffix are never digits
  have htail2 : ∀ c,
      (((if hasExp then eCh :: (eSgn ++ eD)
          else ([] : List Char)) ++ rest)).head? = some c →
        c.isDigit = false := by
    intro c hc
    cases hasExp with
    | false =>
      rw [if_neg (by simp), List.nil_append] at hc
      exact (hrest c hc).1
    | true =>
      rw [if_pos rfl, List.cons_append, List.head?_cons,
        Option.some.injEq] at hc
      rw [← hc]
      rcases heCh with rfl | rfl <;> decide
  -- what parseDecimal does to the significand-and-onwards suffix
  have hdec : parseDecimal (intD ++
      ((if hasDot then '.' :: fracD else ([] : List Char)) ++
        ((if hasExp then eCh :: (eSgn ++ eD) else ([] : List Char)) ++
          rest))) =
      some (((natOfDigits intD : ℚ) + fracOfDigits fracD) *
        (if hasExp then
          (10 : ℚ) ^ ((if eSgn = ['-'] then (-1 : ℤ) else 1) *
            (natOfDigits eD : ℤ)) else 1), rest) := by
    cases hasDot with
    | true =>
      have hne : ¬(intD = [] ∧ fracD = []) := by
        rcases hmant with h | ⟨_, h⟩
        · exact fun hand => h hand.1
        · exact fun hand => h hand.2
      rw [if_pos rfl, List.cons_append]
      rw [parseDecimal_with_dot hint hfrac hne htail2, hexp]
    | false =>
      have hfe : fracD = [] := hnodot rfl
      subst hfe
      have hie : intD ≠ [] := by
        rcases hmant with h | ⟨h, _⟩
        · exact h
        · exact absurd h (by simp)
      have htail3 : ∀ c,
          (((if hasExp then eCh :: (eSgn ++ eD)
              else ([] : List Char)) ++ rest)).head? = some c →
            c.isDigit = false ∧ c ≠ '.' := by
        intro c hc
        refine ⟨htail2 c hc, ?_⟩
        cases hasExp with
        | false =>
          rw [if_neg (by simp), List.nil_append] at hc
          exact (hrest c hc).2.2 rfl rfl
        | true =>
          rw [if_pos rfl, List.cons_append, List.head?_cons,
            Option.some.injEq] at hc
          rw [← hc]
          rcases heCh with rfl | rfl <;> decide
      rw [if_neg (by simp), List.nil_append,
        parseDecimal_no_dot hint hie htail3, hexp]
      simp [fracOfDigits]
  -- heads of the significand are never sign or whitespace characters
  have hcore : ∀ c, (intD ++
      ((if hasDot then '.' :: fracD else ([] : List Char)) ++
        ((if hasExp then eCh :: (eSgn ++ eD) else ([] : List Char)) ++
          rest))).head? = some c →
      c ≠ '+' ∧ c ≠ '-' ∧ c_isspace c = false := by
    intro c hc
    cases intD with
    | cons d ds =>
      rw [List.cons_append, List.head?_cons, Option.some.injEq] at hc
      have hd := digit_not_special (hint d (List.mem_cons_self d ds))
      rw [← hc]
      exact ⟨hd.2.1, hd.2.2.1, hd.1⟩
    | nil =>
      have hdot : hasDot = true := by
        rcases hmant with h | ⟨h, _⟩
        · exact absurd rfl h
        · exact h
      subst hdot
      rw [if_pos rfl, List.nil_append, List.cons_append, List.head?_cons,
        Option.some.injEq] at hc
      rw [← hc]
      refine ⟨by decide, by decide, by decide⟩
  have hcorene : (intD ++
      ((if hasDot then '.' :: fracD else ([] : List Char)) ++
        ((if hasExp then eCh :: (eSgn ++ eD) else ([] : List Char)) ++
          rest))) ≠ [] := by
    cases intD with
    | cons d ds => simp
    | nil =>
      have hdot : hasDot = true := by
        rcases hmant with h | ⟨h, _⟩
        · exact absurd rfl h
        · exact h
      subst hdot
      simp
  -- assemble through the sign and leading whitespace
  rcases hsgn with rfl | rfl | rfl
  · rw [strtod_sign_core hw1 (Or.inl ⟨Or.inl rfl, rfl⟩) hcore hcorene hdec]
    rw [tokenValue, if_neg (show ¬([] : List Char) = ['-'] by decide),
      one_mul, if_neg (by simp)]
  · rw [strtod_sign_core hw1 (Or.inl ⟨Or.inr rfl, rfl⟩) hcore hcorene hdec]
    rw [tokenValue, if_neg (show ¬(['+'] : List Char) = ['-'] by decide),
      one_mul, if_neg (by simp)]
  · rw [strtod_sign_core hw1 (Or.inr ⟨rfl, rfl⟩) hcore hcorene hdec]
    rw [tokenValue, if_pos (show (['-'] : List Char) = ['-'] from rfl),
      neg_one_mul, if_pos rfl]

lemma dropWhile_all_space {s : List Char}
    (h : ∀ c ∈ s, c_isspace c = true) : s.dropWhile c_isspace = [] := by
  have h2 := @dropWhile_append_all c_isspace s ([] : List Char) h
  rw [List.append_nil] at h2
  exact h2

lemma strtod_nil_drop {s : List Char} (h : s.dropWhile c_isspace = []) :
    strtod s = none := by
  rw [strtod]
  simp only [h]
  rfl

/-- `parse_double` accepts a well-formed decomposed numeric token with
trailing whitespace and returns its decimal value. -/
lemma parse_double_token_ok
    (w1 sgn intD fracD eSgn eD w2 : List Char)
    (hasDot hasExp : Bool) (eCh : Char)
    (hw1 : ∀ c ∈ w1, c_isspace c = true)
    (hsgn : sgn = [] ∨ sgn = ['+'] ∨ sgn = ['-'])
    (hint : ∀ c ∈ intD, c.isDigit = true)
    (hfrac : ∀ c ∈ fracD, c.isDigit = true)
    (hmant : intD ≠ [] ∨ (hasDot = true ∧ fracD ≠ []))
    (hnodot : hasDot = false → fracD = [])
    (heCh : eCh = 'e' ∨ eCh = 'E')
    (heSgn : eSgn = [] ∨ eSgn = ['+'] ∨ eSgn = ['-'])
    (heD : ∀ c ∈ eD, c.isDigit = true)
    (heDne : hasExp = true → eD ≠ [])
    (hw2 : ∀ c ∈ w2, c_isspace c = true)
    (hnoof : strtodOverflows (tokenValue sgn intD fracD eSgn eD hasExp) =
      false) :
    parse_double (w1 ++ (sgn ++ (intD ++
        ((if hasDot then '.' :: fracD else ([] : List Char)) ++
          ((if hasExp then eCh :: (eSgn ++ eD) else ([] : List Char)) ++
            w2))))) =
      some (.finite (tokenValue sgn intD fracD eSgn eD hasExp)) := by
  have hrest : ∀ c, w2.head? = some c →
      c.isDigit = false ∧ (hasExp = false → c ≠ 'e' ∧ c ≠ 'E') ∧
        (hasDot = false → hasExp = false → c ≠ '.') := by
    intro c hc
    have hmem : c ∈ w2 := List.mem_of_mem_head? hc
    have hs := space_not_special (hw2 c hmem)
    exact ⟨hs.1, fun _ => ⟨hs.2.2.2.2.1, hs.2.2.2.2.2⟩,
      fun _ _ => hs.2.2.2.1⟩
  have hst := strtod_token w1 sgn intD fracD eSgn eD w2 hasDot hasExp eCh
    hw1 hsgn hint hfrac hmant hnodot heCh heSgn heD heDne hrest
  have h1 : ¬((w1 ++ (sgn ++ (intD ++
      ((if hasDot then '.' :: fracD else ([] : List Char)) ++
        ((if hasExp then eCh :: (eSgn ++ eD) else ([] : List Char)) ++
          w2))))).dropWhile c_isspace).isEmpty = true := by
    intro hc
    rw [List.isEmpty_iff] at hc
    rw [strtod_nil_drop hc] at hst
    exact absurd hst (by simp)
  rw [parse_double, if_neg h1, hst]
  have h2 : (w2.dropWhile c_isspace).isEmpty = true := by
    rw [dropWhile_all_space hw2]
    rfl
  simp only [strtod_sets_erange, hnoof, Bool.false_eq_true, if_false,
    h2, if_true]

lemma tv_digit {c : Char} :
    tokenValue [] [c] [] [] [] false = ((digitVal c : ℕ) : ℚ) := by
  norm_num [tokenValue, natOfDigits, fracOfDigits]

lemma digitVal_le {c : Char} : ((digitVal c : ℕ) : ℚ) ≤ 10000000000 := by
  have h1 : digitVal c < 4294967296 := by
    have h2 : c.toNat < 4294967296 := c.val.val.isLt
    have h3 : digitVal c ≤ c.toNat := Nat.sub_le _ _
    omega
  have : ((digitVal c : ℕ) : ℚ) < 4294967296 := by exact_mod_cast h1
  linarith

lemma strtodOverflows_digit {c : Char} :
    strtodOverflows (tokenValue [] [c] [] [] [] false) = false := by
  rw [tv_digit]
  refine strtodOverflows_small ?_ digitVal_le
  have h := Nat.cast_nonneg (α := ℚ) (digitVal c)
  linarith

lemma parse_double_digit {c : Char} (hc : c.isDigit = true) :
    parse_double [c] = some (.finite (tokenValue [] [c] [] [] [] false)) :=
  parse_double_token_ok [] [] [c] [] [] [] [] false false 'e'
    (by simp) (Or.inl rfl)
    (by intro x hx; rw [List.mem_singleton] at hx; rwa [hx])
    (by simp) (Or.inl (by simp)) (fun _ => rfl) (Or.inl rfl)
    (Or.inl rfl) (by simp) (by simp) (by simp) strtodOverflows_digit

lemma true_offset_3_4 : true_offset 3 4 = 5 := by
  have h : ((3 : ℚ) : ℝ) * ((3 : ℚ) : ℝ) + ((4 : ℚ) : ℝ) * ((4 : ℚ) : ℝ) =
      5 ^ 2 := by norm_num
  rw [true_offset, h, Real.sqrt_sq (by norm_num)]

/-- `sqrt 50` prints as `7.07` to two decimals. -/
lemma sqrt_50_bounds : 7.065 ≤ Real.sqrt 50 ∧ Real.sqrt 50 < 7.075 := by
  constructor
  · rw [show (7.065 : ℝ) = Real.sqrt (7.065 ^ 2) by
      rw [Real.sqrt_sq (by norm_num)]]
    exact Real.sqrt_le_sqrt (by norm_num)
  · rw [show (7.075 : ℝ) = Real.sqrt (7.075 ^ 2) by
      rw [Real.sqrt_sq (by norm_num)]]
    exact Real.sqrt_lt_sqrt (by norm_num) (by norm_num)

lemma eps_le_abs_ten : EPSILON ≤ |(10 : ℚ)| := by
  rw [show |(10 : ℚ)| = 10 from abs_of_pos (by norm_num)]
  norm_num [EPSILON]

lemma eps_le_abs_twenty : EPSILON ≤ |(20 : ℚ)| := by
  rw [show |(20 : ℚ)| = 20 from abs_of_pos (by norm_num)]
  norm_num [EPSILON]

lemma ro_set_3_4_10 : ro_set 3 4 10 = 15 / 4 := by norm_num [ro_set]

lemma ro_ds_3_4_10 : ro_diagonal_squared 3 4 10 = 50 := by
  norm_num [ro_diagonal_squared, ro_set]

lemma ro_set_3_4_20 : ro_set 3 4 20 = 75 / 8 := by norm_num [ro_set]

lemma ro_ds_3_4_20 : ro_diagonal_squared 3 4 20 = 50 := by
  norm_num [ro_diagonal_squared, ro_set]

lemma cmd_ro_3_4_10 :
    cmd_rolling_offset 3 4 10 = Except.ok ⟨15 / 4, 50⟩ := by
  have h1 : ¬(|(10 : ℚ)| < EPSILON) := not_lt.mpr eps_le_abs_ten
  have h2 : ¬((50 : ℚ) < 0) := by norm_num
  simp only [cmd_rolling_offset, ro_ds_3_4_10, ro_set_3_4_10, if_neg h1,
    if_neg h2]

lemma cmd_ro_3_4_20 :
    cmd_rolling_offset 3 4 20 = Except.ok ⟨75 / 8, 50⟩ := by
  have h1 : ¬(|(20 : ℚ)| < EPSILON) := not_lt.mpr eps_le_abs_twenty
  have h2 : ¬((50 : ℚ) < 0) := by norm_num
  simp only [cmd_rolling_offset, ro_ds_3_4_20, ro_set_3_4_20, if_neg h1,
    if_neg h2]

lemma cle_finite_false {a b : ℚ} (h : b < a) :
    CDouble.cle (.finite a) (.finite b) = false := by
  simp [CDouble.cle, decide_eq_false_iff_not, not_le]
  exact h

lemma cmd_beam_wrap_ok {diameter length : ℚ} (hd : 0 < diameter)
    (hl : 0 < length) :
    cmd_beam_wrap diameter length =
      Except.ok (beam_wrap_compute diameter length) := by
  rw [cmd_beam_wrap, beam_wrap_validate, cle_finite_false hd,
    cle_finite_false hl]
  rfl

lemma beam_wrap_compute_12_10_circ :
    (beam_wrap_compute 12 10).circumference = 12 * Real.pi := by
  simp only [beam_wrap_compute]
  push_cast
  ring

lemma beam_wrap_compute_12_10_area :
    (beam_wrap_compute 12 10).area_sq_feet = 10 * Real.pi := by
  simp only [beam_wrap_compute]
  push_cast
  ring

lemma beam_wrap_compute_12_10_material :
    (beam_wrap_compute 12 10).material_needed = 11 * Real.pi := by
  simp only [beam_wrap_compute]
  rw [show (1.1 : ℝ) = 11 / 10 by norm_num]
  push_cast
  ring

/-- C1 counterexample.  At offset=3, roll=4, travel=10 the code computes
`set = (100 - 9 - 16) / 20 = 15/4 = 3.75` (not 8.75) and
`diagonal_squared = 125 - 2*10*(15/4) = 50 ≥ 0`, so `cmd_rolling_offset`
succeeds: it does not fail with the "would result in imaginary diagonal"
ValidationError, contrary to the claim. -/
theorem C1_counterexample :
    cmd_rolling_offset 3 4 10 = Except.ok ⟨15 / 4, 50⟩ ∧
    cmd_rolling_offset 3 4 10 ≠ Except.error RoError.imaginaryDiagonal := by
  refine ⟨cmd_ro_3_4_10, ?_⟩
  rw [cmd_ro_3_4_10]
  simp

/-- C1 (amended): for offset=3, roll=4, travel=10 the rolling-offset
computation succeeds (no ValidationError) with trueOffset = 5.00,
set = 3.75, diagonalSquared = 50 and diagonal = sqrt 50 ≈ 7.07
(it prints as 7.07 to two decimals). -/
theorem C1_rolling_offset_3_4_10 :
    cmd_rolling_offset 3 4 10 = Except.ok ⟨15 / 4, 50⟩ ∧
    true_offset 3 4 = 5 ∧
    7.065 ≤ ro_diagonal 3 4 10 ∧ ro_diagonal 3 4 10 < 7.075 := by
  have hd : ro_diagonal 3 4 10 = Real.sqrt 50 := by
    rw [ro_diagonal, ro_ds_3_4_10]; norm_num
  exact ⟨cmd_ro_3_4_10, true_offset_3_4, by rw [hd]; exact sqrt_50_bounds.1,
    by rw [hd]; exact sqrt_50_bounds.2⟩

/-- C2: whenever the near-zero-travel check passes (`EPSILON ≤ |travel|`),
the computed `diagonal_squared` equals `2*(offset^2 + roll^2)` in exact
arithmetic, hence is non-negative, so the "imaginary diagonal" error
branch of `cmd_rolling_offset` is unreachable. -/
theorem C2_diagonal_squared_eq_two_norm_sq (offset roll travel : ℚ)
    (h : EPSILON ≤ |travel|) :
    ro_diagonal_squared offset roll travel =
      2 * (offset * offset + roll * roll) ∧
    0 ≤ ro_diagonal_squared offset roll travel ∧
    cmd_rolling_offset offset roll travel ≠
      Except.error RoError.imaginaryDiagonal := by
  have ht : travel ≠ 0 := by
    intro h0
    rw [h0, abs_zero] at h
    norm_num [EPSILON] at h
  have key : ro_diagonal_squared offset roll travel =
      2 * (offset * offset + roll * roll) := by
    rw [ro_diagonal_squared, ro_set]
    field_simp
    ring
  have hnn : 0 ≤ ro_diagonal_squared offset roll travel := by
    rw [key]
    have h1 := mul_self_nonneg offset
    have h2 := mul_self_nonneg roll
    linarith
  refine ⟨key, hnn, ?_⟩
  have h1 : ¬(|travel| < EPSILON) := not_lt.mpr h
  have h2 : ¬(ro_diagonal_squared offset roll travel < 0) := not_lt.mpr hnn
  simp [cmd_rolling_offset, h1, h2]

/-- C2 witness: the hypothesis is satisfiable, e.g. at (3, 4, 10). -/
theorem C2_witness :
    ro_diagonal_squared 3 4 10 = 2 * (3 * 3 + 4 * 4) ∧
    0 ≤ ro_diagonal_squared 3 4 10 ∧
    cmd_rolling_offset 3 4 10 ≠ Except.error RoError.imaginaryDiagonal :=
  C2_diagonal_squared_eq_two_norm_sq 3 4 10 eps_le_abs_ten

/-- C3: for offset=3, roll=4, travel=20 the rolling-offset computation
succeeds with trueOffset = 5.00, set = (400-9-16)/40 = 75/8 = 9.375,
diagonalSquared = 50 and diagonal = sqrt 50 ≈ 7.07 inches. -/
theorem C3_rolling_offset_3_4_20 :
    cmd_rolling_offset 3 4 20 = Except.ok ⟨75 / 8, 50⟩ ∧
    true_offset 3 4 = 5 ∧
    7.065 ≤ ro_diagonal 3 4 20 ∧ ro_diagonal 3 4 20 < 7.075 := by
  have hd : ro_diagonal 3 4 20 = Real.sqrt 50 := by
    rw [ro_diagonal, ro_ds_3_4_20]; norm_num
  exact ⟨cmd_ro_3_4_20, true_offset_3_4, by rw [hd]; exact sqrt_50_bounds.1,
    by rw [hd]; exact sqrt_50_bounds.2⟩

/-- C7: if `|travel| < 1e-9` the rolling-offset command fails with the
zero-travel ValidationError, whatever offset and roll are; if
`|travel| ≥ 1e-9` that check passes, so the result is never the
zero-travel error. -/
theorem C7_travel_epsilon_gate (offset roll travel : ℚ) :
    (|travel| < EPSILON →
      cmd_rolling_offset offset roll travel =
        Except.error RoError.zeroTravel) ∧
    (EPSILON ≤ |travel| →
      cmd_rolling_offset offset roll travel ≠
        Except.error RoError.zeroTravel) := by
  constructor
  · intro h
    simp [cmd_rolling_offset, h]
  · intro h
    have h1 : ¬(|travel| < EPSILON) := not_lt.mpr h
    simp only [cmd_rolling_offset, if_neg h1]
    split
    · simp
    · simp

/-- C7 witness: at travel = 0 the command fails with the zero-travel
error for offset=3, roll=4; at travel = 10 it does not. -/
theorem C7_witness :
    cmd_rolling_offset 3 4 0 = Except.error RoError.zeroTravel ∧
    cmd_rolling_offset 3 4 10 ≠ Except.error RoError.zeroTravel :=
  ⟨(C7_travel_epsilon_gate 3 4 0).1 (by rw [abs_zero]; norm_num [EPSILON]),
   (C7_travel_epsilon_gate 3 4 10).2 eps_le_abs_ten⟩

/-- C4: for strictly positive diameter and length the beam-wrap command
succeeds and computes circumference = 2·π·(diameter/2),
surfaceAreaSqFt = circumference · (length·12) / 144 and
materialNeeded = surfaceAreaSqFt · 1.1; in particular for diameter=12,
length=10 the three outputs print (to two decimals) as 37.70 in,
31.42 sq ft and 34.56 sq ft. -/
theorem C4_beam_wrap_formulas (diameter length : ℚ)
    (hd : 0 < diameter) (hl : 0 < length) :
    cmd_beam_wrap diameter length =
      Except.ok (beam_wrap_compute diameter length) ∧
    (beam_wrap_compute diameter length).circumference =
      2 * Real.pi * ((diameter : ℝ) / 2) ∧
    (beam_wrap_compute diameter length).area_sq_feet =
      2 * Real.pi * ((diameter : ℝ) / 2) * ((length : ℝ) * 12) / 144 ∧
    (beam_wrap_compute diameter length).material_needed =
      2 * Real.pi * ((diameter : ℝ) / 2) * ((length : ℝ) * 12) / 144 * 1.1 ∧
    37.695 ≤ (beam_wrap_compute 12 10).circumference ∧
    (beam_wrap_compute 12 10).circumference < 37.705 ∧
    31.415 ≤ (beam_wrap_compute 12 10).area_sq_feet ∧
    (beam_wrap_compute 12 10).area_sq_feet < 31.425 ∧
    34.555 ≤ (beam_wrap_compute 12 10).material_needed ∧
    (beam_wrap_compute 12 10).material_needed < 34.565 := by
  have hpi1 := Real.pi_gt_d6
  have hpi2 := Real.pi_lt_d6
  refine ⟨cmd_beam_wrap_ok hd hl, rfl, rfl, rfl, ?_, ?_, ?_, ?_, ?_, ?_⟩
  · rw [beam_wrap_compute_12_10_circ]; linarith
  · rw [beam_wrap_compute_12_10_circ]; linarith
  · rw [beam_wrap_compute_12_10_area]; linarith
  · rw [beam_wrap_compute_12_10_area]; linarith
  · rw [beam_wrap_compute_12_10_material]; linarith
  · rw [beam_wrap_compute_12_10_material]; linarith

/-- C4 witness: the hypotheses hold at diameter=12, length=10. -/
theorem C4_witness :
    cmd_beam_wrap 12 10 = Except.ok (beam_wrap_compute 12 10) ∧
    (beam_wrap_compute 12 10).circumference =
      2 * Real.pi * (((12 : ℚ) : ℝ) / 2) ∧
    (beam_wrap_compute 12 10).area_sq_feet =
      2 * Real.pi * (((12 : ℚ) : ℝ) / 2) * (((10 : ℚ) : ℝ) * 12) / 144 ∧
    (beam_wrap_compute 12 10).material_needed =
      2 * Real.pi * (((12 : ℚ) : ℝ) / 2) * (((10 : ℚ) : ℝ) * 12) / 144 *
        1.1 ∧
    37.695 ≤ (beam_wrap_compute 12 10).circumference ∧
    (beam_wrap_compute 12 10).circumference < 37.705 ∧
    31.415 ≤ (beam_wrap_compute 12 10).area_sq_feet ∧
    (beam_wrap_compute 12 10).area_sq_feet < 31.425 ∧
    34.555 ≤ (beam_wrap_compute 12 10).material_needed ∧
    (beam_wrap_compute 12 10).material_needed < 34.565 :=
  C4_beam_wrap_formulas 12 10 (by norm_num) (by norm_num)

/-- C6: the beam-wrap command fails with a "must be positive"
ValidationError exactly when diameter ≤ 0 or length ≤ 0 (on an
`Except.error` no result block is produced); in particular diameter=0
and length=−1 each fail, naming the offending field. -/
theorem C6_beam_wrap_must_be_positive (diameter length : ℚ) :
    ((∃ e, cmd_beam_wrap diameter length = Except.error e) ↔
      diameter ≤ 0 ∨ length ≤ 0) ∧
    cmd_beam_wrap 0 10 = Except.error BwError.diameterNotPositive ∧
    cmd_beam_wrap 12 (-1) = Except.error BwError.lengthNotPositive := by
  refine ⟨?_, ?_, ?_⟩
  · by_cases hd : diameter ≤ 0
    · simp [cmd_beam_wrap, beam_wrap_validate, CDouble.cle, hd]
    · by_cases hl : length ≤ 0
      · simp [cmd_beam_wrap, beam_wrap_validate, CDouble.cle, hd, hl]
      · simp [cmd_beam_wrap, beam_wrap_validate, CDouble.cle, hd, hl]
  · norm_num [cmd_beam_wrap, beam_wrap_validate, CDouble.cle]
  · norm_num [cmd_beam_wrap, beam_wrap_validate, CDouble.cle]

/-- C8: `gps_distance` is symmetric in its two coordinate pairs. -/
theorem C8_gps_distance_symm (lat1 lon1 lat2 lon2 : ℝ) :
    gps_distance lat1 lon1 lat2 lon2 = gps_distance lat2 lon2 lat1 lon1 := by
  have ha : haversine_a lat2 lon2 lat1 lon1 =
      haversine_a lat1 lon1 lat2 lon2 := by
    rw [haversine_a, haversine_a]
    have h1 : (lat1 - lat2) * Real.pi / 180 / 2 =
        -((lat2 - lat1) * Real.pi / 180 / 2) := by ring
    have h2 : (lon1 - lon2) * Real.pi / 180 / 2 =
        -((lon2 - lon1) * Real.pi / 180 / 2) := by ring
    rw [h1, h2]
    simp only [Real.sin_neg]
    ring
  rw [gps_distance, gps_distance, ha]

/-- C9 counterexample.  `cmd_gps_verify` checks only `argc < 6`, so a
fifth argument — even a non-numeric one — is ignored and the command
still succeeds: it does not require *exactly* four numeric arguments. -/
theorem C9_counterexample :
    exceptOk (cmd_gps_verify [['1'], ['2'], ['3'], ['4'], ['x']]) =
      true := by
  have h1 := @parse_double_digit '1' (by decide)
  have h2 := @parse_double_digit '2' (by decide)
  have h3 := @parse_double_digit '3' (by decide)
  have h4 := @parse_double_digit '4' (by decide)
  simp [cmd_gps_verify, parse_field, h1, h2, h3, h4, exceptOk,
    Bind.bind, Except.bind]

/-- C9 (amended): with fewer than 4 arguments gps-verify exits 1 with
its usage-specific error; with 4 or more it parses exactly the first
four (ignoring any extras) and succeeds precisely when those four parse
as numbers. -/
theorem C9_gps_verify_arg_gate (args : List (List Char)) :
    (args.length < 4 →
      cmd_gps_verify args = Except.error GpsCliError.argCount) ∧
    (∀ a1 a2 a3 a4 rest, args = a1 :: a2 :: a3 :: a4 :: rest →
      cmd_gps_verify args = cmd_gps_verify [a1, a2, a3, a4] ∧
      (exceptOk (cmd_gps_verify args) = true ↔
        ((parse_double a1).isSome ∧ (parse_double a2).isSome ∧
          (parse_double a3).isSome ∧ (parse_double a4).isSome))) := by
  constructor
  · intro h
    rcases args with _ | ⟨a1, _ | ⟨a2, _ | ⟨a3, _ | ⟨a4, rest⟩⟩⟩⟩
    · rfl
    · rfl
    · rfl
    · rfl
    · exfalso
      simp [List.length_cons] at h
      omega
  · rintro a1 a2 a3 a4 rest rfl
    refine ⟨rfl, ?_⟩
    cases h1 : parse_double a1 with
    | none => simp [cmd_gps_verify, parse_field, h1, exceptOk, Bind.bind, Except.bind]
    | some v1 =>
      cases h2 : parse_double a2 with
      | none => simp [cmd_gps_verify, parse_field, h1, h2, exceptOk, Bind.bind, Except.bind]
      | some v2 =>
        cases h3 : parse_double a3 with
        | none => simp [cmd_gps_verify, parse_field, h1, h2, h3, exceptOk, Bind.bind, Except.bind]
        | some v3 =>
          cases h4 : parse_double a4 with
          | none =>
            simp [cmd_gps_verify, parse_field, h1, h2, h3, h4, exceptOk, Bind.bind, Except.bind]
          | some v4 =>
            simp [cmd_gps_verify, parse_field, h1, h2, h3, h4, exceptOk, Bind.bind, Except.bind]

/-- C9 witness: at concrete inputs — 3 arguments fail with the
usage-specific error; 5 arguments (the fifth non-numeric) are accepted
with only the first four read. -/
theorem C9_witness :
    cmd_gps_verify [['1'], ['2'], ['3']] =
      Except.error GpsCliError.argCount ∧
    cmd_gps_verify [['1'], ['2'], ['3'], ['4'], ['x']] =
      cmd_gps_verify [['1'], ['2'], ['3'], ['4']] :=
  ⟨(C9_gps_verify_arg_gate [['1'], ['2'], ['3']]).1 (by decide),
   ((C9_gps_verify_arg_gate [['1'], ['2'], ['3'], ['4'], ['x']]).2
     ['1'] ['2'] ['3'] ['4'] [['x']] rfl).1⟩

/-- C10: `parse_double` accepts tokens outside decimal/scientific
notation — "nan" and "inf" from the full strtod grammar — and the NaN
result passes beam-wrap's strict-positivity gate (C's `NaN <= 0` is
false), so beam-wrap does not fail on the token "nan". -/
theorem C10_nan_inf_accepted :
    parse_double ['n', 'a', 'n'] = some CDouble.nan ∧
    parse_double ['i', 'n', 'f'] = some CDouble.posInf ∧
    (∀ q : ℚ, parse_double ['n', 'a', 'n'] ≠ some (CDouble.finite q)) ∧
    beam_wrap_validate CDouble.nan (.finite 10) = none := by
  have hnan : parse_double ['n', 'a', 'n'] = some CDouble.nan := by rfl
  have hinf : parse_double ['i', 'n', 'f'] = some CDouble.posInf := by rfl
  refine ⟨hnan, hinf, ?_, ?_⟩
  · intro q h
    rw [hnan] at h
    exact absurd h (by simp)
  · rw [beam_wrap_validate, if_neg (by simp [CDouble.cle]), if_neg]
    norm_num [CDouble.cle]

end PipeTrades
